import Mathlib

/-!
NutriTrack service worker.

A shallow embedding of `src/service-worker.js`: the four event listeners
(install, activate, fetch, message) as state-passing functions over the host's
cache storage, together with the properties of the cache lifecycle and of the
cache-first interception strategy.

The host runtime (Cache Storage, the network, `skipWaiting`, `clients.claim`)
is not part of the repository; it is modelled below as explicit state, an
explicit network function and a trace of host calls.
-/

set_option autoImplicit false

namespace NutriTrack

/-! ## Data model -/

/-- Request identity: method and URL. -/
structure Request where
  method : String
  url : String
deriving DecidableEq, Repr

/-- A response as the worker and the host's cache inspect it: `status`, `type`,
the body, and the field values of its `Vary` header. -/
structure Response where
  status : Nat
  type : String
  body : String
  vary : List String
deriving DecidableEq, Repr

/-- The method `response.clone()`: a second, equal response. -/
def Response.clone (r : Response) : Response := r

/-- The getter `response.ok`: a status in the range 200 to 299. -/
def Response.ok (r : Response) : Bool := decide (200 ≤ r.status) && decide (r.status ≤ 299)

/-- One cache generation: request identity mapped to stored response, in insertion order. -/
abbrev Cache := List (Request × Response)

/-- Modelled from the spec: the host's cache storage ("one or more named cache
stores, keyed by generation name; each store is a mapping from request identity
to stored response"). `available = false` is the store being unavailable: every
operation on it rejects. -/
structure CacheStorage where
  available : Bool
  generations : List (String × Cache)
deriving DecidableEq, Repr

/-- The ways a host operation can fail. -/
inductive JsError where
  | typeError
  | networkError
  | storageError
deriving DecidableEq, Repr

/-- What the network does with a request: the fetch rejects, or resolves with a
value the worker tests with `!response` (so possibly no response). -/
inductive NetResult where
  | failed
  | resolved (response : Option Response)
deriving DecidableEq, Repr

/-- The network, fixed for the duration of a handler. -/
abbrev Network := Request → NetResult

/-- Calls the worker makes on its host, recorded in the order they happen. -/
inductive Effect where
  | consoleLog (args : List String)
  | networkFetch (req : Request)
  | skipWaiting
  | clientsClaim
  | waitUntil
  | respondWith
deriving DecidableEq, Repr

/-- Message payloads (`event.data`): the values a structured clone can carry. -/
inductive JsVal where
  | undefined
  | null
  | bool (b : Bool)
  | number (n : Int)
  | string (s : String)
  | object (props : List (String × JsVal))

/-! ## Promises as state-passing computations -/

/-- The settled state of an asynchronous computation: how it settled, the cache
storage it leaves, and the host calls it made. -/
structure Outcome (α : Type) where
  result : Except JsError α
  caches : CacheStorage
  trace : List Effect

/-- A promise, run to settlement from a given cache storage. -/
def Promise (α : Type) : Type := CacheStorage → Outcome α

namespace Promise

variable {α β : Type}

/-- The promise `Promise.resolve(v)`. -/
def resolve (v : α) : Promise α := fun st => ⟨.ok v, st, []⟩

/-- The promise `Promise.reject(e)`. -/
def reject (e : JsError) : Promise α := fun st => ⟨.error e, st, []⟩

/-- The chaining `p.then(f)`: the callback runs only when `p` resolves; a rejection passes through. -/
def andThen (p : Promise α) (f : α → Promise β) : Promise β := fun st =>
  let o := p st
  match o.result with
  | .ok v =>
    let o2 := f v o.caches
    ⟨o2.result, o2.caches, o.trace ++ o2.trace⟩
  | .error e => ⟨.error e, o.caches, o.trace⟩

/-- The chaining `p.catch(f)`: the callback runs only when `p` rejects. -/
def catchWith (p : Promise α) (f : JsError → Promise α) : Promise α := fun st =>
  let o := p st
  match o.result with
  | .ok v => ⟨.ok v, o.caches, o.trace⟩
  | .error e =>
    let o2 := f e o.caches
    ⟨o2.result, o2.caches, o.trace ++ o2.trace⟩

/-- A promise that is started but neither returned nor awaited: its effects
happen, its value and any rejection are dropped, and the caller goes on with
`undefined`. -/
def detach (p : Promise α) : Promise Unit := fun st =>
  let o := p st
  ⟨.ok (), o.caches, o.trace⟩

/-- The combinator `Promise.all(ps)`: every promise runs; the result is the list
of values, or the first rejection. -/
def all : List (Promise α) → Promise (List α)
  | [] => resolve []
  | p :: ps => fun st =>
    let o := p st
    let os := all ps o.caches
    ⟨(match o.result, os.result with
      | .ok v, .ok vs => .ok (v :: vs)
      | .error e, _ => .error e
      | .ok _, .error e => .error e),
     os.caches, o.trace ++ os.trace⟩

/-- A synchronous host call that only leaves a mark in the trace. -/
def hostCall (e : Effect) : Promise Unit := fun st => ⟨.ok (), st, [e]⟩

end Promise

/-! ## The host API -/

/-- The lookup `cache.match(request)` in one generation. -/
def Cache.matchRequest (c : Cache) (req : Request) : Option Response :=
  c.lookup req

/-- The write `cache.put(request, response)` in one generation: an existing
entry of the same key is replaced ("overwritten on a subsequent successful
fetch of the same key"). -/
def Cache.put (c : Cache) (req : Request) (resp : Response) : Cache :=
  c.filter (fun e => decide (e.1 ≠ req)) ++ [(req, resp)]

/-- The generation called `name`, when it exists. -/
def CacheStorage.generation (st : CacheStorage) (name : String) : Option Cache :=
  st.generations.lookup name

/-- Lookup across all generations, in order of creation. -/
def CacheStorage.matchRequest (st : CacheStorage) (req : Request) : Option Response :=
  st.generations.findSome? (fun g => g.2.matchRequest req)

/-- Modelled from the spec: `caches.match(request)`, "look up the request in any
existing cache (across generations, keyed by request identity)". -/
def cachesMatch (req : Request) : Promise (Option Response) := fun st =>
  if st.available then ⟨.ok (st.matchRequest req), st, []⟩
  else ⟨.error .storageError, st, []⟩

/-- Modelled from the spec: `caches.open(name)`, "open (create-if-absent)"; the
handle it resolves with is the generation's name. -/
def cachesOpen (name : String) : Promise String := fun st =>
  if st.available then
    if st.generations.any (fun g => g.1 == name) then ⟨.ok name, st, []⟩
    else ⟨.ok name, ⟨true, st.generations ++ [(name, [])]⟩, []⟩
  else ⟨.error .storageError, st, []⟩

/-- Modelled from the spec: `caches.keys()`, "enumerate all existing
cache-generation names". -/
def cachesKeys : Promise (List String) := fun st =>
  if st.available then ⟨.ok (st.generations.map (fun g => g.1)), st, []⟩
  else ⟨.error .storageError, st, []⟩

/-- Modelled from the spec: `caches.delete(name)`, "delete it entirely";
resolves with whether the generation existed. -/
def cachesDelete (name : String) : Promise Bool := fun st =>
  if st.available then
    ⟨.ok (st.generations.any (fun g => g.1 == name)),
     ⟨true, st.generations.filter (fun g => g.1 != name)⟩, []⟩
  else ⟨.error .storageError, st, []⟩

/-- Apply `f` to the generation called `name`. -/
def CacheStorage.update (st : CacheStorage) (name : String) (f : Cache → Cache) : CacheStorage :=
  ⟨st.available, st.generations.map (fun g => if g.1 == name then (g.1, f g.2) else g)⟩

/-- Whether the host's cache takes the pair: it refuses, with a type error, a
request whose method is not GET, a response of status 206 and a response whose
`Vary` header lists `*`. -/
def putAccepts (req : Request) (resp : Response) : Bool :=
  req.method == "GET" && resp.status != 206 && !resp.vary.contains "*"

/-- Modelled from the spec: `cache.put(request, response)` on an opened
generation; a pair the host refuses rejects the promise and stores nothing. -/
def cachePut (cache : String) (req : Request) (resp : Response) : Promise Unit := fun st =>
  if st.available then
    if putAccepts req resp then ⟨.ok (), st.update cache (fun c => c.put req resp), []⟩
    else ⟨.error .typeError, st, []⟩
  else ⟨.error .storageError, st, []⟩

/-- The global `fetch(request)`: one network call. -/
def fetch (net : Network) (req : Request) : Promise (Option Response) := fun st =>
  match net req with
  | .failed => ⟨.error .networkError, st, [.networkFetch req]⟩
  | .resolved r => ⟨.ok r, st, [.networkFetch req]⟩

/-- The request a URL string stands for. -/
def Request.ofUrl (url : String) : Request := ⟨"GET", url⟩

/-- The responses of a list of network results, when every one is a response
with an ok status that the host's cache takes (`addAll` refuses what `put`
refuses). -/
def okResponses : List (Request × NetResult) → Option (List (Request × Response))
  | [] => some []
  | (req, .resolved (some r)) :: rest =>
    if r.ok && putAccepts req r then (okResponses rest).map (fun l => (req, r) :: l) else none
  | _ :: _ => none

/-- What the network answers for a list of URLs, when every answer is a
response with an ok status that the host's cache takes. -/
def fetchAll (net : Network) (urls : List String) : Option (List (Request × Response)) :=
  okResponses ((urls.map Request.ofUrl).map (fun r => (r, net r)))

/-- Put a list of entries into one generation, in order. -/
def Cache.putAll (c : Cache) (entries : List (Request × Response)) : Cache :=
  entries.foldl (fun c e => c.put e.1 e.2) c

/-- Modelled from the spec: `cache.addAll(urls)`, every resource of the list
"fetched and stored"; it rejects, writing nothing, when a fetch fails or
answers with a status that is not ok or a response the cache refuses. -/
def cacheAddAll (net : Network) (cache : String) (urls : List String) : Promise Unit := fun st =>
  let tr := (urls.map Request.ofUrl).map Effect.networkFetch
  if st.available then
    match fetchAll net urls with
    | some entries => ⟨.ok (), st.update cache (fun c => c.putAll entries), tr⟩
    | none => ⟨.error .typeError, st, tr⟩
  else ⟨.error .storageError, st, []⟩

/-- The concatenated arguments of `console.log`. -/
def consoleLog (args : List String) : Promise Unit := Promise.hostCall (.consoleLog args)

/-- An event listener: the calls its body makes synchronously, then the
promise it handed to `waitUntil` or `respondWith`, run to settlement. -/
def listener {α : Type} (sync : List Effect) (p : Promise α) : Promise α := fun st =>
  let o := p st
  ⟨o.result, o.caches, sync ++ o.trace⟩

/-! ## The worker (`src/service-worker.js`) -/

/-- The current generation's name. -/
def CACHE_NAME : String := "nutritrack-v1"

/-- The pre-populate list. -/
def urlsToCache : List String := ["/", "/index.html", "/manifest.json"]

/-- The `install` listener. -/
def installListener (net : Network) : Promise Unit :=
  listener [.waitUntil, .skipWaiting]
    ((cachesOpen CACHE_NAME).andThen fun cache =>
      (consoleLog ["Cache ouvert"]).andThen fun _ =>
        cacheAddAll net cache urlsToCache)

/-- The callback the `activate` listener maps over the generation names: a
stale generation is logged and deleted, the current one yields `undefined`. -/
def deleteIfStale (cacheName : String) : Promise (Option Bool) :=
  if cacheName ≠ CACHE_NAME then
    (consoleLog ["Suppression ancien cache:", cacheName]).andThen fun _ =>
      (cachesDelete cacheName).andThen fun deleted => Promise.resolve (some deleted)
  else Promise.resolve none

/-- The `activate` listener. -/
def activateListener : Promise (List (Option Bool)) :=
  listener [.waitUntil, .clientsClaim]
    (cachesKeys.andThen fun cacheNames =>
      Promise.all (cacheNames.map deleteIfStale))

/-- The `fetch` listener: the promise handed to `event.respondWith`. -/
def fetchListener (net : Network) (request : Request) : Promise (Option Response) :=
  listener [.respondWith]
    (((cachesMatch request).andThen fun response =>
        match response with
        | some cached => Promise.resolve (some cached)
        | none =>
          (fetch net request).andThen fun response =>
            match response with
            | none => Promise.resolve none
            | some response =>
              if response.status ≠ 200 ∨ response.type ≠ "basic" then
                Promise.resolve (some response)
              else
                let responseToCache := response.clone
                (Promise.detach ((cachesOpen CACHE_NAME).andThen fun cache =>
                    Promise.detach (cachePut cache request responseToCache))).andThen fun _ =>
                  Promise.resolve (some response)).catchWith fun _ =>
      (consoleLog ["Erreur réseau - Mode offline"]).andThen fun _ => Promise.resolve none)

/-- The read `event.data.action`: a type error on `undefined` and `null`, the
property when the payload is an object that has it, `undefined` otherwise. -/
def JsVal.action : JsVal → Except JsError JsVal
  | .undefined => .error .typeError
  | .null => .error .typeError
  | .object props => .ok ((props.lookup "action").getD .undefined)
  | _ => .ok .undefined

/-- The comparison `v === s` against a string. -/
def JsVal.strictEqString : JsVal → String → Bool
  | .string t, s => t == s
  | _, _ => false

/-- The `message` listener. -/
def messageListener (data : JsVal) : Promise Unit :=
  match data.action with
  | .error e => Promise.reject e
  | .ok action =>
    if action.strictEqString "skipWaiting" then Promise.hostCall .skipWaiting
    else Promise.resolve ()

/-- The entry stored for `req` in the generation called `name`, when both exist. -/
def CacheStorage.entry (st : CacheStorage) (name : String) (req : Request) : Option Response :=
  (st.generation name).bind (fun c => c.matchRequest req)

/-! ## Derived states -/

/-- The cache storage after the fetch listener opened the current generation
(created when absent). -/
def storeAfterOpen (gens : List (String × Cache)) : CacheStorage :=
  (cachesOpen CACHE_NAME ⟨true, gens⟩).caches

/-- The cache storage after the detached write of the fetch listener, when the
host takes it: the current generation opened and the entry put into it. -/
def storeAfterWrite (gens : List (String × Cache)) (req : Request) (resp : Response) :
    CacheStorage :=
  ((cachesOpen CACHE_NAME ⟨true, gens⟩).caches).update CACHE_NAME (fun c => c.put req resp)

/-- The host calls of an install on an available cache storage. -/
def installTrace : List Effect :=
  [.waitUntil, .skipWaiting, .consoleLog ["Cache ouvert"]]
    ++ (urlsToCache.map Request.ofUrl).map Effect.networkFetch

/-! ## Sample inputs -/

/-- A same-origin success response. -/
def sampleBasic : Response := ⟨200, "basic", "payload", []⟩

/-- A cross-origin opaque response. -/
def sampleOpaque : Response := ⟨200, "opaque", "", []⟩

/-- A same-origin success response whose `Vary` header is `*`. -/
def sampleVaryStar : Response := ⟨200, "basic", "payload", ["*"]⟩

/-- A form submission to `/data.json`. -/
def postData : Request := ⟨"POST", "/data.json"⟩

/-- The request for `/index.html`. -/
def indexHtml : Request := ⟨"GET", "/index.html"⟩

/-- A network that answers every request with the `Vary: *` response. -/
def networkVaryStar : Network := fun _ => .resolved (some sampleVaryStar)

/-- The request for `/data.json`. -/
def dataJson : Request := ⟨"GET", "/data.json"⟩

/-- The cross-origin request for `/cdn/lib.js`. -/
def cdnLib : Request := ⟨"GET", "/cdn/lib.js"⟩

/-- A network that answers every request with the same-origin success response. -/
def networkOnline : Network := fun _ => .resolved (some sampleBasic)

/-- A network that answers every request with the opaque response. -/
def networkOpaque : Network := fun _ => .resolved (some sampleOpaque)

/-- A network without connectivity: every fetch fails. -/
def networkOffline : Network := fun _ => .failed

/-- A stale generation holding `/data.json`, and the current generation, empty. -/
def staleAndCurrent : List (String × Cache) :=
  [("nutritrack-v0", [(dataJson, sampleBasic)]), ("nutritrack-v1", [])]

/-! ## Activation: garbage collection of stale generations -/

theorem deleteIfStale_stale (cacheName : String) (gens : List (String × Cache))
    (h : cacheName ≠ CACHE_NAME) :
    (deleteIfStale cacheName ⟨true, gens⟩).caches
        = ⟨true, gens.filter (fun g => g.1 != cacheName)⟩
      ∧ ∃ v, (deleteIfStale cacheName ⟨true, gens⟩).result = .ok v := by
  simp [deleteIfStale, h, consoleLog, Promise.hostCall, Promise.andThen, cachesDelete,
    Promise.resolve]

theorem deleteIfStale_current (gens : List (String × Cache)) :
    (deleteIfStale CACHE_NAME ⟨true, gens⟩).caches = ⟨true, gens⟩
      ∧ ∃ v, (deleteIfStale CACHE_NAME ⟨true, gens⟩).result = .ok v := by
  simp [deleteIfStale, Promise.resolve]

/-- Running the deletions for a list of names keeps exactly the generations
that are current or not named. -/
theorem all_deleteIfStale (names : List String) (gens : List (String × Cache)) :
    (Promise.all (names.map deleteIfStale) ⟨true, gens⟩).caches
        = ⟨true, gens.filter (fun g => g.1 == CACHE_NAME || !names.contains g.1)⟩
      ∧ ∃ vs, (Promise.all (names.map deleteIfStale) ⟨true, gens⟩).result = .ok vs := by
  induction names generalizing gens with
  | nil => simp [Promise.all, Promise.resolve]
  | cons n ns ih =>
    by_cases hn : n = CACHE_NAME
    · subst hn
      obtain ⟨hc, v, hv⟩ := deleteIfStale_current gens
      obtain ⟨ihc, vs, hvs⟩ := ih gens
      simp only [List.map_cons, Promise.all, hc, hv, ihc, hvs]
      refine ⟨?_, _, rfl⟩
      congr 1
      apply List.filter_congr
      intro g _
      by_cases hg : g.1 = CACHE_NAME <;> simp [hg]
    · obtain ⟨hc, v, hv⟩ := deleteIfStale_stale n gens hn
      obtain ⟨ihc, vs, hvs⟩ := ih (gens.filter (fun g => g.1 != n))
      simp only [List.map_cons, Promise.all, hc, hv, ihc, hvs]
      refine ⟨?_, _, rfl⟩
      congr 1
      rw [List.filter_filter]
      apply List.filter_congr
      intro g _
      by_cases hg : g.1 = n
      · have : ¬ n = CACHE_NAME := hn
        simp [hg, this]
      · have hg2 : ¬ n = g.1 := fun h => hg h.symm
        simp [hg, hg2]

theorem activateListener_caches (gens : List (String × Cache)) :
    (activateListener ⟨true, gens⟩).caches
        = ⟨true, gens.filter (fun g => g.1 == CACHE_NAME)⟩
      ∧ ∃ vs, (activateListener ⟨true, gens⟩).result = .ok vs := by
  obtain ⟨hc, vs, hvs⟩ := all_deleteIfStale (gens.map (fun g => g.1)) gens
  simp only [activateListener, listener, Promise.andThen, cachesKeys, if_true, hc, hvs]
  refine ⟨?_, _, rfl⟩
  congr 1
  apply List.filter_congr
  intro g hg
  have : g.1 ∈ gens.map (fun g => g.1) := List.mem_map_of_mem _ hg
  simp [this]

theorem lookup_filter_eq_name (gens : List (String × Cache)) (name : String) :
    (gens.filter (fun g => g.1 == name)).lookup name = gens.lookup name := by
  induction gens with
  | nil => rfl
  | cons g gs ih =>
    obtain ⟨n, c⟩ := g
    by_cases h : n = name
    · subst h; simp [List.filter_cons, List.lookup_cons]
    · have h2 : (name == n) = false := by simpa using fun e : name = n => h e.symm
      simp [List.filter_cons, List.lookup_cons, h, h2, ih]

theorem lookup_filter_ne_name (gens : List (String × Cache)) (name other : String)
    (h : other ≠ name) :
    (gens.filter (fun g => g.1 == name)).lookup other = none := by
  induction gens with
  | nil => rfl
  | cons g gs ih =>
    obtain ⟨n, c⟩ := g
    by_cases hn : n = name
    · subst hn
      have h2 : (other == n) = false := by simpa using h
      simp [List.filter_cons, List.lookup_cons, h2, ih]
    · simp [List.filter_cons, hn, ih]

/-- C1. Activation garbage collection: from every cache storage state the
activate handler completes, and afterwards no generation with a name other
than CACHE_NAME exists, while the generation named CACHE_NAME is there exactly
when it was before, with exactly the same entries. -/
theorem activate_garbage_collection (gens : List (String × Cache)) :
    (∃ vs, (activateListener ⟨true, gens⟩).result = .ok vs)
      ∧ (∀ g ∈ (activateListener ⟨true, gens⟩).caches.generations, g.1 = CACHE_NAME)
      ∧ (∀ name, name ≠ CACHE_NAME →
          (activateListener ⟨true, gens⟩).caches.generation name = none)
      ∧ (activateListener ⟨true, gens⟩).caches.generation CACHE_NAME
          = CacheStorage.generation ⟨true, gens⟩ CACHE_NAME := by
  obtain ⟨hc, hres⟩ := activateListener_caches gens
  refine ⟨hres, ?_, ?_, ?_⟩
  · intro g hg
    rw [hc] at hg
    simpa using (List.mem_filter.mp hg).2
  · intro name hname
    rw [hc]
    exact lookup_filter_ne_name gens CACHE_NAME name hname
  · rw [hc]
    exact lookup_filter_eq_name gens CACHE_NAME

/-! ## Request interception: the branches of the fetch listener -/

theorem fetchListener_unavailable (net : Network) (req : Request)
    (gens : List (String × Cache)) :
    fetchListener net req ⟨false, gens⟩
      = ⟨.ok none, ⟨false, gens⟩, [.respondWith, .consoleLog ["Erreur réseau - Mode offline"]]⟩ := by
  simp [fetchListener, listener, Promise.catchWith, Promise.andThen, cachesMatch, consoleLog,
    Promise.hostCall, Promise.resolve]

theorem fetchListener_hit (net : Network) (req : Request) (gens : List (String × Cache))
    (r : Response) (h : CacheStorage.matchRequest ⟨true, gens⟩ req = some r) :
    fetchListener net req ⟨true, gens⟩ = ⟨.ok (some r), ⟨true, gens⟩, [.respondWith]⟩ := by
  simp [fetchListener, listener, Promise.catchWith, Promise.andThen, cachesMatch, h,
    Promise.resolve]

theorem fetchListener_miss_failed (net : Network) (req : Request)
    (gens : List (String × Cache))
    (h : CacheStorage.matchRequest ⟨true, gens⟩ req = none) (hnet : net req = .failed) :
    fetchListener net req ⟨true, gens⟩
      = ⟨.ok none, ⟨true, gens⟩,
          [.respondWith, .networkFetch req, .consoleLog ["Erreur réseau - Mode offline"]]⟩ := by
  simp [fetchListener, listener, Promise.catchWith, Promise.andThen, cachesMatch, h, fetch, hnet,
    consoleLog, Promise.hostCall, Promise.resolve]

theorem fetchListener_miss_absent (net : Network) (req : Request)
    (gens : List (String × Cache))
    (h : CacheStorage.matchRequest ⟨true, gens⟩ req = none)
    (hnet : net req = .resolved none) :
    fetchListener net req ⟨true, gens⟩
      = ⟨.ok none, ⟨true, gens⟩, [.respondWith, .networkFetch req]⟩ := by
  simp [fetchListener, listener, Promise.catchWith, Promise.andThen, cachesMatch, h, fetch, hnet,
    Promise.resolve]

theorem fetchListener_miss_passthrough (net : Network) (req : Request)
    (gens : List (String × Cache)) (r : Response)
    (h : CacheStorage.matchRequest ⟨true, gens⟩ req = none)
    (hnet : net req = .resolved (some r)) (hbad : r.status ≠ 200 ∨ r.type ≠ "basic") :
    fetchListener net req ⟨true, gens⟩
      = ⟨.ok (some r), ⟨true, gens⟩, [.respondWith, .networkFetch req]⟩ := by
  simp [fetchListener, listener, Promise.catchWith, Promise.andThen, cachesMatch, h, fetch, hnet,
    Promise.resolve, hbad]

theorem fetchListener_miss_cacheable (net : Network) (req : Request)
    (gens : List (String × Cache)) (r : Response)
    (h : CacheStorage.matchRequest ⟨true, gens⟩ req = none)
    (hnet : net req = .resolved (some r)) (hs : r.status = 200) (ht : r.type = "basic")
    (hacc : putAccepts req r = true) :
    fetchListener net req ⟨true, gens⟩
      = ⟨.ok (some r), storeAfterWrite gens req r, [.respondWith, .networkFetch req]⟩ := by
  by_cases hany : gens.any (fun g => g.1 == CACHE_NAME) = true
  · simp [fetchListener, listener, Promise.catchWith, Promise.andThen, cachesMatch, h, fetch,
      hnet, Promise.resolve, hs, ht, Promise.detach, cachesOpen, cachePut, storeAfterWrite,
      Response.clone, hany, hacc]
  · simp [fetchListener, listener, Promise.catchWith, Promise.andThen, cachesMatch, h, fetch,
      hnet, Promise.resolve, hs, ht, Promise.detach, cachesOpen, cachePut, storeAfterWrite,
      Response.clone, hany, hacc]

theorem fetchListener_miss_refused (net : Network) (req : Request)
    (gens : List (String × Cache)) (r : Response)
    (h : CacheStorage.matchRequest ⟨true, gens⟩ req = none)
    (hnet : net req = .resolved (some r)) (hs : r.status = 200) (ht : r.type = "basic")
    (hacc : putAccepts req r = false) :
    fetchListener net req ⟨true, gens⟩
      = ⟨.ok (some r), storeAfterOpen gens, [.respondWith, .networkFetch req]⟩ := by
  by_cases hany : gens.any (fun g => g.1 == CACHE_NAME) = true
  · simp [fetchListener, listener, Promise.catchWith, Promise.andThen, cachesMatch, h, fetch,
      hnet, Promise.resolve, hs, ht, Promise.detach, cachesOpen, cachePut, storeAfterOpen,
      Response.clone, hany, hacc]
  · simp [fetchListener, listener, Promise.catchWith, Promise.andThen, cachesMatch, h, fetch,
      hnet, Promise.resolve, hs, ht, Promise.detach, cachesOpen, cachePut, storeAfterOpen,
      Response.clone, hany, hacc]

/-! ## Cache entries under `put` and `open` -/

theorem lookup_filter_drop (c : Cache) (p : Request × Response → Bool) (k : Request)
    (hp : ∀ e, e.1 = k → p e = false) : (c.filter p).lookup k = none := by
  rw [List.lookup_eq_none_iff]
  intro e he
  have h := (List.mem_filter.mp he).2
  have hne : ¬ k = e.1 := fun hh => by simp [hp e hh.symm] at h
  simpa using hne

theorem lookup_filter_keep (c : Cache) (p : Request × Response → Bool) (k : Request)
    (hp : ∀ e, e.1 = k → p e = true) : (c.filter p).lookup k = c.lookup k := by
  induction c with
  | nil => rfl
  | cons e rest ih =>
    obtain ⟨q, v⟩ := e
    by_cases hkq : k = q
    · subst hkq
      simp [List.filter_cons, hp (k, v) rfl]
    · have h2 : (k == q) = false := by simpa using hkq
      cases hpe : p (q, v) <;> simp [List.filter_cons, hpe, List.lookup_cons, h2, ih]

theorem matchRequest_put_self (c : Cache) (req : Request) (resp : Response) :
    (c.put req resp).matchRequest req = some resp := by
  unfold Cache.matchRequest Cache.put
  rw [List.lookup_append, lookup_filter_drop c _ req (fun e he => by simp [he])]
  simp

theorem matchRequest_put_other (c : Cache) (req k : Request) (resp : Response)
    (hk : k ≠ req) :
    (c.put req resp).matchRequest k = c.matchRequest k := by
  have h2 : (k == req) = false := by simpa using hk
  unfold Cache.matchRequest Cache.put
  rw [List.lookup_append,
    lookup_filter_keep c _ k (fun e he => by simpa [he] using hk)]
  simp [List.lookup_cons, h2]

theorem lookup_map_keyed (gens : List (String × Cache)) (name : String)
    (F : String × Cache → String × Cache) (hF : ∀ g, (F g).1 = g.1) :
    (gens.map F).lookup name = (gens.lookup name).map (fun c => (F (name, c)).2) := by
  induction gens with
  | nil => rfl
  | cons g gs ih =>
    obtain ⟨n, c⟩ := g
    have hg : F (n, c) = (n, (F (n, c)).2) := Prod.ext (hF _) rfl
    by_cases h : name = n
    · subst h
      rw [List.map_cons, hg]
      simp
    · have h2 : (name == n) = false := by simpa using h
      rw [List.map_cons, hg, List.lookup_cons, List.lookup_cons, h2]
      exact ih

theorem generation_update_self (st : CacheStorage) (name : String) (f : Cache → Cache) :
    (st.update name f).generation name = (st.generation name).map f := by
  unfold CacheStorage.update CacheStorage.generation
  rw [lookup_map_keyed _ _ _ (fun g => by split <;> rfl)]
  simp

theorem generation_update_other (st : CacheStorage) (name other : String)
    (f : Cache → Cache) (h : other ≠ name) :
    (st.update name f).generation other = st.generation other := by
  unfold CacheStorage.update CacheStorage.generation
  rw [lookup_map_keyed _ _ _ (fun g => by split <;> rfl)]
  simp [h]

theorem lookup_none_of_any_false (gens : List (String × Cache)) (name : String)
    (h : ¬ gens.any (fun g => g.1 == name) = true) : gens.lookup name = none := by
  rw [List.lookup_eq_none_iff]
  intro g hg
  simp only [List.any_eq_true, not_exists, not_and] at h
  have := h g hg
  simpa using fun e : name = g.1 => this (by simp [e])

theorem lookup_some_of_any (gens : List (String × Cache)) (name : String)
    (h : gens.any (fun g => g.1 == name) = true) : ∃ c, gens.lookup name = some c := by
  obtain ⟨g, hg, hn⟩ := List.any_eq_true.mp h
  have : (gens.lookup name).isSome := by
    rw [List.lookup_isSome_iff]
    exact ⟨g, hg, by simpa using (by simpa using hn : g.1 = name).symm⟩
  exact Option.isSome_iff_exists.mp this

/-- Opening a generation makes it exist, with the entries it had (none when new). -/
theorem generation_cachesOpen_self (gens : List (String × Cache)) (name : String) :
    (cachesOpen name ⟨true, gens⟩).caches.generation name
      = some ((CacheStorage.generation ⟨true, gens⟩ name).getD []) := by
  by_cases hany : gens.any (fun g => g.1 == name) = true
  · obtain ⟨c, hc⟩ := lookup_some_of_any gens name hany
    simp only [cachesOpen, if_true, hany, CacheStorage.generation, hc, Option.getD_some]
  · have hnone := lookup_none_of_any_false gens name hany
    simp only [cachesOpen, if_true, hany, CacheStorage.generation, Bool.false_eq_true,
      reduceIte]
    rw [List.lookup_append, hnone]
    simp

/-- Opening a generation leaves every other generation as it was. -/
theorem generation_cachesOpen_other (gens : List (String × Cache)) (name other : String)
    (h : other ≠ name) :
    (cachesOpen name ⟨true, gens⟩).caches.generation other
      = CacheStorage.generation ⟨true, gens⟩ other := by
  have h2 : (other == name) = false := by simpa using h
  by_cases hany : gens.any (fun g => g.1 == name) = true
  · simp only [cachesOpen, if_true, hany]
  · simp only [cachesOpen, if_true, hany, CacheStorage.generation, Bool.false_eq_true,
      reduceIte]
    rw [List.lookup_append]
    simp [List.lookup_cons, h2]

/-- Opening the current generation adds no entry. -/
theorem storeAfterOpen_entry (gens : List (String × Cache)) (name : String) (k : Request) :
    (storeAfterOpen gens).entry name k = CacheStorage.entry ⟨true, gens⟩ name k := by
  unfold storeAfterOpen CacheStorage.entry
  by_cases hname : name = CACHE_NAME
  · subst hname
    rw [generation_cachesOpen_self]
    cases hg : CacheStorage.generation ⟨true, gens⟩ CACHE_NAME with
    | none => rfl
    | some c => rfl
  · rw [generation_cachesOpen_other _ _ _ hname]

theorem putAccepts_of_get (req : Request) (r : Response) (hget : req.method = "GET")
    (hs : r.status = 200) (hvary : "*" ∉ r.vary) : putAccepts req r = true := by
  simp [putAccepts, hget, hs, hvary]

/-- After the write, the current generation holds the written entry. -/
theorem storeAfterWrite_entry_self (gens : List (String × Cache)) (req : Request)
    (resp : Response) :
    (storeAfterWrite gens req resp).entry CACHE_NAME req = some resp := by
  unfold storeAfterWrite CacheStorage.entry
  rw [generation_update_self, generation_cachesOpen_self]
  simp [matchRequest_put_self]

/-- After the write, every other key of the current generation is as before. -/
theorem storeAfterWrite_entry_other (gens : List (String × Cache)) (req k : Request)
    (resp : Response) (hk : k ≠ req) :
    (storeAfterWrite gens req resp).entry CACHE_NAME k
      = CacheStorage.entry ⟨true, gens⟩ CACHE_NAME k := by
  unfold storeAfterWrite CacheStorage.entry
  rw [generation_update_self, generation_cachesOpen_self]
  cases hg : CacheStorage.generation ⟨true, gens⟩ CACHE_NAME with
  | none =>
    simp only [Option.getD_none, Option.map_some', Option.some_bind, Option.none_bind,
      matchRequest_put_other _ _ _ _ hk]
    rfl
  | some c => simp [matchRequest_put_other _ _ _ _ hk]

/-- After the write, every other generation is as before. -/
theorem storeAfterWrite_generation_other (gens : List (String × Cache)) (req : Request)
    (resp : Response) (name : String) (hname : name ≠ CACHE_NAME) :
    (storeAfterWrite gens req resp).generation name
      = CacheStorage.generation ⟨true, gens⟩ name := by
  unfold storeAfterWrite
  rw [generation_update_other _ _ _ _ hname, generation_cachesOpen_other _ _ _ hname]

/-! ## Request interception: the claims -/

theorem matchRequest_none_of_all (gens : List (String × Cache)) (req : Request)
    (h : ∀ g ∈ gens, g.2.matchRequest req = none) :
    CacheStorage.matchRequest ⟨true, gens⟩ req = none := by
  unfold CacheStorage.matchRequest
  rw [List.findSome?_eq_none_iff]
  exact h

/-- C2. Cache-first hit: when some generation (current or stale) holds an
entry for the request, the fetch handler resolves with a stored response for
that request (the one the lookup across generations finds, which is the given
entry whenever no generation holds a different one), makes no network fetch and
leaves the cache storage unchanged. -/
theorem fetch_cache_hit (net : Network) (req : Request) (gens : List (String × Cache))
    (name : String) (c : Cache) (r : Response)
    (hgen : (name, c) ∈ gens) (hent : c.matchRequest req = some r) :
    ∃ found, CacheStorage.matchRequest ⟨true, gens⟩ req = some found
      ∧ (∃ g ∈ gens, g.2.matchRequest req = some found)
      ∧ ((∀ g ∈ gens, ∀ other, g.2.matchRequest req = some other → other = r) → found = r)
      ∧ (fetchListener net req ⟨true, gens⟩).result = .ok (some found)
      ∧ (∀ q, Effect.networkFetch q ∉ (fetchListener net req ⟨true, gens⟩).trace)
      ∧ (fetchListener net req ⟨true, gens⟩).caches = ⟨true, gens⟩ := by
  have hsome : (CacheStorage.matchRequest ⟨true, gens⟩ req).isSome := by
    unfold CacheStorage.matchRequest
    rw [List.findSome?_isSome_iff]
    exact ⟨(name, c), hgen, by simp [hent]⟩
  obtain ⟨found, hfound⟩ := Option.isSome_iff_exists.mp hsome
  obtain ⟨g, hg, hgr⟩ := List.exists_of_findSome?_eq_some hfound
  refine ⟨found, hfound, ⟨g, hg, hgr⟩, fun huniq => huniq g hg found hgr, ?_, ?_, ?_⟩
  · rw [fetchListener_hit net req gens found hfound]
  · intro q
    rw [fetchListener_hit net req gens found hfound]
    simp
  · rw [fetchListener_hit net req gens found hfound]

/-- C3 (amended). Cacheable miss: when a GET request is in no generation and
the network answers with a status 200 response of type basic whose Vary header
does not list the star, the fetch handler resolves with that network response,
and afterwards the current generation holds an entry for the request equal to
it, every other key of the current generation and every other generation being
as before. -/
theorem fetch_cacheable_miss (net : Network) (req : Request) (gens : List (String × Cache))
    (r : Response)
    (hmiss : ∀ g ∈ gens, g.2.matchRequest req = none)
    (hnet : net req = .resolved (some r)) (hs : r.status = 200) (ht : r.type = "basic")
    (hget : req.method = "GET") (hvary : "*" ∉ r.vary) :
    (fetchListener net req ⟨true, gens⟩).result = .ok (some r)
      ∧ (fetchListener net req ⟨true, gens⟩).caches.entry CACHE_NAME req = some r
      ∧ (∀ k, k ≠ req →
          (fetchListener net req ⟨true, gens⟩).caches.entry CACHE_NAME k
            = CacheStorage.entry ⟨true, gens⟩ CACHE_NAME k)
      ∧ (∀ name, name ≠ CACHE_NAME →
          (fetchListener net req ⟨true, gens⟩).caches.generation name
            = CacheStorage.generation ⟨true, gens⟩ name) := by
  rw [fetchListener_miss_cacheable net req gens r (matchRequest_none_of_all gens req hmiss)
    hnet hs ht (putAccepts_of_get req r hget hs hvary)]
  exact ⟨rfl, storeAfterWrite_entry_self gens req r,
    fun k hk => storeAfterWrite_entry_other gens req k r hk,
    fun name hname => storeAfterWrite_generation_other gens req r name hname⟩

/-- The fetch handler changes the cache storage only in its cacheable branch:
there it opens the current generation and, when the host takes the pair, puts
the entry. -/
theorem fetchListener_caches (net : Network) (req : Request) (st : CacheStorage) :
    (fetchListener net req st).caches = st
      ∨ (∃ gens, st = ⟨true, gens⟩ ∧ (fetchListener net req st).caches = storeAfterOpen gens)
      ∨ ∃ gens r, st = ⟨true, gens⟩ ∧ net req = .resolved (some r) ∧ r.status = 200
          ∧ r.type = "basic" ∧ (fetchListener net req st).caches = storeAfterWrite gens req r := by
  obtain ⟨avail, gens⟩ := st
  cases avail with
  | false => left; rw [fetchListener_unavailable]
  | true =>
    cases hm : CacheStorage.matchRequest ⟨true, gens⟩ req with
    | some found => left; rw [fetchListener_hit net req gens found hm]
    | none =>
      cases hnet : net req with
      | failed => left; rw [fetchListener_miss_failed net req gens hm hnet]
      | resolved v =>
        cases v with
        | none => left; rw [fetchListener_miss_absent net req gens hm hnet]
        | some r =>
          by_cases hok : r.status = 200 ∧ r.type = "basic"
          · cases hacc : putAccepts req r with
            | true =>
              right; right
              exact ⟨gens, r, rfl, rfl, hok.1, hok.2,
                by rw [fetchListener_miss_cacheable net req gens r hm hnet hok.1 hok.2 hacc]⟩
            | false =>
              right; left
              exact ⟨gens, rfl,
                by rw [fetchListener_miss_refused net req gens r hm hnet hok.1 hok.2 hacc]⟩
          · left
            have hbad : r.status ≠ 200 ∨ r.type ≠ "basic" := by
              by_cases h1 : r.status = 200
              · exact Or.inr (fun h2 => hok ⟨h1, h2⟩)
              · exact Or.inl h1
            rw [fetchListener_miss_passthrough net req gens r hm hnet hbad]

/-- C4. Non-cacheable pass-through: on a cache miss, a network answer that is
absent, or has a status other than 200, or a type other than basic, is
returned as it is and nothing is written: the cache storage is unchanged and
holds no entry for the request. Consequently an entry that the fetch handler
wrote (one present afterwards and not before) is in the current generation,
under the request, and is the network response, of status 200 and type basic. -/
theorem fetch_non_cacheable (net : Network) (req : Request) (st : CacheStorage) :
    (∀ v, st.available = true → (∀ g ∈ st.generations, g.2.matchRequest req = none) →
        net req = .resolved v → (∀ r, v = some r → r.status ≠ 200 ∨ r.type ≠ "basic") →
        (fetchListener net req st).result = .ok v
          ∧ (fetchListener net req st).caches = st
          ∧ (∀ g ∈ (fetchListener net req st).caches.generations,
              g.2.matchRequest req = none))
      ∧ (∀ name k r, (fetchListener net req st).caches.entry name k = some r →
          st.entry name k ≠ some r →
          r.status = 200 ∧ r.type = "basic" ∧ net req = .resolved (some r)
            ∧ k = req ∧ name = CACHE_NAME) := by
  constructor
  · intro v havail hmiss hnet hbad
    obtain ⟨avail, gens⟩ := st
    simp only at havail hmiss
    subst havail
    have hm := matchRequest_none_of_all gens req hmiss
    cases v with
    | none =>
      rw [fetchListener_miss_absent net req gens hm hnet]
      exact ⟨rfl, rfl, hmiss⟩
    | some r =>
      rw [fetchListener_miss_passthrough net req gens r hm hnet (hbad r rfl)]
      exact ⟨rfl, rfl, hmiss⟩
  · intro name k r hafter hbefore
    rcases fetchListener_caches net req st with
      hsame | ⟨gens, hst, hc⟩ | ⟨gens, r0, hst, hnet, hs, ht, hc⟩
    · rw [hsame] at hafter
      exact absurd hafter hbefore
    · rw [hc, storeAfterOpen_entry] at hafter
      subst hst
      exact absurd hafter hbefore
    · rw [hc] at hafter
      subst hst
      by_cases hname : name = CACHE_NAME
      · subst hname
        by_cases hk : k = req
        · subst hk
          rw [storeAfterWrite_entry_self] at hafter
          have hr : r0 = r := Option.some.inj hafter
          subst hr
          exact ⟨hs, ht, hnet, rfl, rfl⟩
        · rw [storeAfterWrite_entry_other gens req k r0 hk] at hafter
          exact absurd hafter hbefore
      · have hg := storeAfterWrite_generation_other gens req r0 name hname
        unfold CacheStorage.entry at hafter hbefore
        rw [hg] at hafter
        exact absurd hafter hbefore

/-- C10. Network failure: on a cache miss with a network fetch that fails, the
failure is caught (the promise handed to respondWith resolves, it does not
reject), it resolves with no response at all, and the cache storage is
unchanged; the only host calls are the fetch and the log. -/
theorem fetch_network_failure (net : Network) (req : Request)
    (gens : List (String × Cache))
    (hmiss : ∀ g ∈ gens, g.2.matchRequest req = none) (hnet : net req = .failed) :
    (fetchListener net req ⟨true, gens⟩).result = .ok none
      ∧ (fetchListener net req ⟨true, gens⟩).caches = ⟨true, gens⟩
      ∧ (fetchListener net req ⟨true, gens⟩).trace
          = [.respondWith, .networkFetch req, .consoleLog ["Erreur réseau - Mode offline"]] := by
  rw [fetchListener_miss_failed net req gens (matchRequest_none_of_all gens req hmiss) hnet]
  exact ⟨rfl, rfl, rfl⟩

/-- C6 (amended). Response settlement: for every fetch event the handler calls
respondWith exactly once, with a promise that always resolves: with the stored
response on a cache hit, with what the network fetch resolved with on a miss,
and with no response when the network fetch fails or the cache lookup fails. -/
theorem fetch_response_settles (net : Network) (req : Request) (st : CacheStorage) :
    (fetchListener net req st).trace.count .respondWith = 1
      ∧ ∃ v, (fetchListener net req st).result = .ok v
          ∧ ((∃ r, v = some r ∧ st.available = true ∧ st.matchRequest req = some r)
            ∨ (st.available = true ∧ st.matchRequest req = none ∧ net req = .resolved v)
            ∨ (v = none ∧ (st.available = false
                ∨ (st.matchRequest req = none ∧ net req = .failed)))) := by
  obtain ⟨avail, gens⟩ := st
  cases avail with
  | false =>
    rw [fetchListener_unavailable]
    exact ⟨by simp [List.count_cons], none, rfl, Or.inr (Or.inr ⟨rfl, Or.inl rfl⟩)⟩
  | true =>
    cases hm : CacheStorage.matchRequest ⟨true, gens⟩ req with
    | some found =>
      rw [fetchListener_hit net req gens found hm]
      exact ⟨by simp, some found, rfl, Or.inl ⟨found, rfl, rfl, rfl⟩⟩
    | none =>
      cases hnet : net req with
      | failed =>
        rw [fetchListener_miss_failed net req gens hm hnet]
        exact ⟨by simp [List.count_cons], none, rfl, Or.inr (Or.inr ⟨rfl, Or.inr ⟨rfl, rfl⟩⟩)⟩
      | resolved v =>
        cases v with
        | none =>
          rw [fetchListener_miss_absent net req gens hm hnet]
          exact ⟨by simp [List.count_cons], none, rfl, Or.inr (Or.inl ⟨rfl, rfl, rfl⟩)⟩
        | some r =>
          by_cases hok : r.status = 200 ∧ r.type = "basic"
          · cases hacc : putAccepts req r with
            | true =>
              rw [fetchListener_miss_cacheable net req gens r hm hnet hok.1 hok.2 hacc]
              exact ⟨by simp [List.count_cons], some r, rfl, Or.inr (Or.inl ⟨rfl, rfl, rfl⟩)⟩
            | false =>
              rw [fetchListener_miss_refused net req gens r hm hnet hok.1 hok.2 hacc]
              exact ⟨by simp [List.count_cons], some r, rfl, Or.inr (Or.inl ⟨rfl, rfl, rfl⟩)⟩
          · have hbad : r.status ≠ 200 ∨ r.type ≠ "basic" := by
              by_cases h1 : r.status = 200
              · exact Or.inr (fun h2 => hok ⟨h1, h2⟩)
              · exact Or.inl h1
            rw [fetchListener_miss_passthrough net req gens r hm hnet hbad]
            exact ⟨by simp [List.count_cons], some r, rfl, Or.inr (Or.inl ⟨rfl, rfl, rfl⟩)⟩

/-- C7 (amended). A failing cache lookup goes to the catch callback of the
chain: the fetch handler makes no network fetch, logs the offline message,
resolves with no response and leaves the cache storage unchanged. -/
theorem fetch_lookup_failure (net : Network) (req : Request) (gens : List (String × Cache)) :
    (fetchListener net req ⟨false, gens⟩).result = .ok none
      ∧ (∀ q, Effect.networkFetch q ∉ (fetchListener net req ⟨false, gens⟩).trace)
      ∧ (fetchListener net req ⟨false, gens⟩).trace
          = [.respondWith, .consoleLog ["Erreur réseau - Mode offline"]]
      ∧ (fetchListener net req ⟨false, gens⟩).caches = ⟨false, gens⟩ := by
  rw [fetchListener_unavailable]
  refine ⟨rfl, ?_, rfl, rfl⟩
  intro q
  simp

/-! ## Installation: pre-population of the current generation -/

theorem cachesOpen_shape (name : String) (gens : List (String × Cache)) :
    ∃ gens1, cachesOpen name ⟨true, gens⟩ = ⟨.ok name, ⟨true, gens1⟩, []⟩
      ∧ gens1.any (fun g => g.1 == name) = true := by
  by_cases hany : gens.any (fun g => g.1 == name) = true
  · exact ⟨gens, by simp only [cachesOpen, if_true, hany], hany⟩
  · refine ⟨gens ++ [(name, [])], ?_, ?_⟩
    · simp only [cachesOpen, if_true, hany, Bool.false_eq_true, reduceIte]
    · simp

theorem cachesOpen_of_any (name : String) (gens : List (String × Cache))
    (hany : gens.any (fun g => g.1 == name) = true) :
    cachesOpen name ⟨true, gens⟩ = ⟨.ok name, ⟨true, gens⟩, []⟩ := by
  simp only [cachesOpen, if_true, hany]

theorem installListener_unavailable (net : Network) (gens : List (String × Cache)) :
    installListener net ⟨false, gens⟩
      = ⟨.error .storageError, ⟨false, gens⟩, [.waitUntil, .skipWaiting]⟩ := by
  simp [installListener, listener, Promise.andThen, cachesOpen]

theorem installListener_resolved (net : Network) (gens : List (String × Cache))
    (entries : List (Request × Response)) (h : fetchAll net urlsToCache = some entries) :
    installListener net ⟨true, gens⟩
      = ⟨.ok (), ((cachesOpen CACHE_NAME ⟨true, gens⟩).caches).update CACHE_NAME
            (fun c => c.putAll entries), installTrace⟩ := by
  obtain ⟨gens1, hopen, _⟩ := cachesOpen_shape CACHE_NAME gens
  simp [installListener, listener, Promise.andThen, hopen, consoleLog, Promise.hostCall,
    cacheAddAll, h, installTrace]

theorem installListener_rejected (net : Network) (gens : List (String × Cache))
    (h : fetchAll net urlsToCache = none) :
    installListener net ⟨true, gens⟩
      = ⟨.error .typeError, (cachesOpen CACHE_NAME ⟨true, gens⟩).caches, installTrace⟩ := by
  obtain ⟨gens1, hopen, _⟩ := cachesOpen_shape CACHE_NAME gens
  simp [installListener, listener, Promise.andThen, hopen, consoleLog, Promise.hostCall,
    cacheAddAll, h, installTrace]

theorem putAll_nil (c : Cache) : c.putAll [] = c := rfl

theorem putAll_cons (c : Cache) (e : Request × Response) (es : List (Request × Response)) :
    c.putAll (e :: es) = (c.put e.1 e.2).putAll es := rfl

theorem matchRequest_putAll_of_not_mem (es : List (Request × Response)) (c : Cache)
    (k : Request) (hk : k ∉ es.map (fun e => e.1)) :
    (c.putAll es).matchRequest k = c.matchRequest k := by
  induction es generalizing c with
  | nil => rfl
  | cons e rest ih =>
    simp only [List.map_cons, List.mem_cons, not_or] at hk
    rw [putAll_cons, ih _ hk.2, matchRequest_put_other _ _ _ _ hk.1]

theorem matchRequest_putAll_of_mem (es : List (Request × Response)) (c : Cache)
    (k : Request) (hk : k ∈ es.map (fun e => e.1)) :
    ∃ r, (k, r) ∈ es ∧ (c.putAll es).matchRequest k = some r := by
  induction es generalizing c with
  | nil => simp at hk
  | cons e rest ih =>
    rw [putAll_cons]
    by_cases hrest : k ∈ rest.map (fun e => e.1)
    · obtain ⟨r, hr, hlook⟩ := ih (c.put e.1 e.2) hrest
      exact ⟨r, List.mem_cons_of_mem _ hr, hlook⟩
    · have hke : k = e.1 := by
        simp only [List.map_cons, List.mem_cons] at hk
        rcases hk with h | h
        · exact h
        · exact absurd h hrest
      subst hke
      refine ⟨e.2, List.mem_cons_self _ _, ?_⟩
      rw [matchRequest_putAll_of_not_mem rest _ _ hrest, matchRequest_put_self]

theorem okResponses_spec (l : List (Request × NetResult)) (es : List (Request × Response))
    (h : okResponses l = some es) :
    es.map (fun e => e.1) = l.map (fun e => e.1)
      ∧ ∀ k r, (k, r) ∈ es → (k, NetResult.resolved (some r)) ∈ l ∧ r.ok = true := by
  induction l generalizing es with
  | nil =>
    simp only [okResponses, Option.some.injEq] at h
    subst h
    simp
  | cons x rest ih =>
    obtain ⟨q, res⟩ := x
    cases res with
    | failed => simp [okResponses] at h
    | resolved v =>
      cases v with
      | none => simp [okResponses] at h
      | some r0 =>
        by_cases hok2 : (r0.ok && putAccepts q r0) = true
        · have hok : r0.ok = true := (Bool.and_eq_true _ _ ▸ hok2).1
          simp only [okResponses, hok2, if_true] at h
          cases hrest : okResponses rest with
          | none => simp [hrest] at h
          | some es0 =>
            simp only [hrest, Option.map_some', Option.some.injEq] at h
            subst h
            obtain ⟨hkeys, hmem⟩ := ih es0 hrest
            refine ⟨by simp [hkeys], ?_⟩
            intro k r hkr
            rcases List.mem_cons.mp hkr with heq | hin
            · obtain ⟨h1, h2⟩ := Prod.mk.inj heq
              subst h1; subst h2
              exact ⟨List.mem_cons_self _ _, hok⟩
            · exact ⟨List.mem_cons_of_mem _ (hmem k r hin).1, (hmem k r hin).2⟩
        · simp only [okResponses, hok2, Bool.false_eq_true, if_false] at h
          cases h

theorem fetchAll_spec (net : Network) (urls : List String) (es : List (Request × Response))
    (h : fetchAll net urls = some es) :
    es.map (fun e => e.1) = urls.map Request.ofUrl
      ∧ ∀ k r, (k, r) ∈ es → net k = .resolved (some r) ∧ r.ok = true := by
  obtain ⟨hkeys, hmem⟩ := okResponses_spec _ es h
  refine ⟨by simpa [List.map_map, Function.comp_def] using hkeys, ?_⟩
  intro k r hkr
  obtain ⟨hin, hok⟩ := hmem k r hkr
  obtain ⟨q, _, hq⟩ := List.mem_map.mp hin
  obtain ⟨h1, h2⟩ := Prod.mk.inj hq
  subst h1
  exact ⟨h2, hok⟩

theorem installListener_result_ok (net : Network) (st : CacheStorage)
    (h : (installListener net st).result = .ok ()) :
    ∃ gens es, st = ⟨true, gens⟩ ∧ fetchAll net urlsToCache = some es
      ∧ (installListener net st).caches
          = ((cachesOpen CACHE_NAME ⟨true, gens⟩).caches).update CACHE_NAME
              (fun c => c.putAll es) := by
  obtain ⟨avail, gens⟩ := st
  cases avail with
  | false => rw [installListener_unavailable] at h; cases h
  | true =>
    cases hf : fetchAll net urlsToCache with
    | none => rw [installListener_rejected net gens hf] at h; cases h
    | some es => exact ⟨gens, es, rfl, rfl, by rw [installListener_resolved net gens es hf]⟩

theorem entry_after_putAll (gens : List (String × Cache)) (es : List (Request × Response))
    (k : Request) :
    (((cachesOpen CACHE_NAME ⟨true, gens⟩).caches).update CACHE_NAME
        (fun c => c.putAll es)).entry CACHE_NAME k
      = (((CacheStorage.generation ⟨true, gens⟩ CACHE_NAME).getD []).putAll es).matchRequest k := by
  unfold CacheStorage.entry
  rw [generation_update_self, generation_cachesOpen_self]
  rfl

/-- C5. Install pre-population: whenever the install handler completes
successfully, the current generation holds, for every URL of urlsToCache, an
entry that is the network response for it; and when the cache storage was empty
before, it holds no entry for a URL that is not in the list. -/
theorem install_prepopulates (net : Network) :
    (∀ st, (installListener net st).result = .ok () →
        ∀ url ∈ urlsToCache, ∃ r, net (Request.ofUrl url) = .resolved (some r)
          ∧ (installListener net st).caches.entry CACHE_NAME (Request.ofUrl url) = some r)
      ∧ ((installListener net ⟨true, []⟩).result = .ok () →
          ∀ url, url ∉ urlsToCache →
            (installListener net ⟨true, []⟩).caches.entry CACHE_NAME (Request.ofUrl url)
              = none) := by
  constructor
  · intro st hres url hurl
    obtain ⟨gens, es, hst, hf, hc⟩ := installListener_result_ok net st hres
    obtain ⟨hkeys, hmem⟩ := fetchAll_spec net urlsToCache es hf
    have hk : Request.ofUrl url ∈ es.map (fun e => e.1) := by
      rw [hkeys]; exact List.mem_map_of_mem _ hurl
    obtain ⟨r, hr, hlook⟩ := matchRequest_putAll_of_mem es
      ((CacheStorage.generation ⟨true, gens⟩ CACHE_NAME).getD []) _ hk
    refine ⟨r, (hmem _ r hr).1, ?_⟩
    rw [hc, entry_after_putAll, hlook]
  · intro hres url hurl
    obtain ⟨gens, es, hst, hf, hc⟩ := installListener_result_ok net _ hres
    obtain ⟨hkeys, _⟩ := fetchAll_spec net urlsToCache es hf
    have hgens : gens = [] := by
      have := congrArg CacheStorage.generations hst
      exact this.symm
    subst hgens
    have hk : Request.ofUrl url ∉ es.map (fun e => e.1) := by
      rw [hkeys]
      intro hin
      obtain ⟨u, hu, hq⟩ := List.mem_map.mp hin
      have : u = url := by
        simp only [Request.ofUrl, Request.mk.injEq, true_and] at hq
        exact hq
      exact hurl (this ▸ hu)
    rw [hc, entry_after_putAll, matchRequest_putAll_of_not_mem es _ _ hk]
    rfl

/-! ## Installation: idempotence -/

/-- Putting a list of entries drops the old entries of their keys and appends
what the same puts build from the empty cache. -/
theorem putAll_eq_filter_append (es : List (Request × Response)) (c : Cache) :
    c.putAll es
      = c.filter (fun x => decide (x.1 ∉ es.map (fun e => e.1))) ++ Cache.putAll [] es := by
  induction es generalizing c with
  | nil => simp [putAll_nil]
  | cons e rest ih =>
    have hsingle : Cache.put [] e.1 e.2 = [(e.1, e.2)] := rfl
    rw [putAll_cons, ih (c.put e.1 e.2), putAll_cons, hsingle, ih [(e.1, e.2)]]
    unfold Cache.put
    rw [List.filter_append, List.filter_filter, List.append_assoc]
    congr 1
    apply List.filter_congr
    intro x _
    by_cases h1 : x.1 = e.1 <;> by_cases h2 : x.1 ∈ rest.map (fun e => e.1) <;>
      simp [h1, h2]

theorem mem_putAll (es : List (Request × Response)) (c : Cache) (x : Request × Response)
    (hx : x ∈ c.putAll es) : x ∈ c ∨ x.1 ∈ es.map (fun e => e.1) := by
  induction es generalizing c with
  | nil => exact Or.inl hx
  | cons e rest ih =>
    rw [putAll_cons] at hx
    rcases ih _ hx with h | h
    · unfold Cache.put at h
      rcases List.mem_append.mp h with h1 | h1
      · exact Or.inl (List.mem_filter.mp h1).1
      · have : x = (e.1, e.2) := by simpa using h1
        subst this
        exact Or.inr (List.mem_cons_self _ _)
    · exact Or.inr (List.mem_cons_of_mem _ h)

theorem putAll_idempotent (es : List (Request × Response)) (c : Cache) :
    (c.putAll es).putAll es = c.putAll es := by
  have hnil : (Cache.putAll [] es).filter (fun x => decide (x.1 ∉ es.map (fun e => e.1))) = [] := by
    rw [List.filter_eq_nil_iff]
    intro x hx
    rcases mem_putAll es [] x hx with h | h
    · simp at h
    · simp only [decide_not, Bool.not_eq_true', decide_eq_false_iff_not, not_not]
      exact h
  rw [putAll_eq_filter_append es (c.putAll es)]
  conv_lhs => rw [putAll_eq_filter_append es c]
  rw [List.filter_append, hnil, List.append_nil, List.filter_filter]
  conv_rhs => rw [putAll_eq_filter_append es c]
  congr 1
  apply List.filter_congr
  intro x _
  simp

theorem update_update (st : CacheStorage) (name : String) (f g : Cache → Cache) :
    (st.update name f).update name g = st.update name (fun c => g (f c)) := by
  unfold CacheStorage.update
  simp only [List.map_map, CacheStorage.mk.injEq, true_and]
  apply List.map_congr_left
  intro x _
  by_cases h : x.1 = name <;> simp [h]

theorem any_update (gens : List (String × Cache)) (name : String) (f : Cache → Cache) :
    ((CacheStorage.update ⟨true, gens⟩ name f).generations).any (fun g => g.1 == name)
      = gens.any (fun g => g.1 == name) := by
  unfold CacheStorage.update
  simp only [List.any_map]
  congr 1
  funext x
  by_cases h : x.1 = name <;> simp [h]

/-- C8. Install idempotence: with the network fixed, running the install
handler on the cache storage left by a first run leaves the same cache
storage, and settles the same way, as the first run did. -/
theorem install_idempotent (net : Network) (st : CacheStorage) :
    (installListener net (installListener net st).caches).caches
        = (installListener net st).caches
      ∧ (installListener net (installListener net st).caches).result
        = (installListener net st).result := by
  obtain ⟨avail, gens⟩ := st
  cases avail with
  | false =>
    rw [installListener_unavailable, installListener_unavailable]
    exact ⟨rfl, rfl⟩
  | true =>
    obtain ⟨gens1, hopen, hany⟩ := cachesOpen_shape CACHE_NAME gens
    cases hf : fetchAll net urlsToCache with
    | none =>
      rw [installListener_rejected net gens hf, hopen]
      simp only
      rw [installListener_rejected net gens1 hf, cachesOpen_of_any CACHE_NAME gens1 hany]
      exact ⟨rfl, rfl⟩
    | some es =>
      rw [installListener_resolved net gens es hf, hopen]
      simp only
      have hany2 := any_update gens1 CACHE_NAME (fun c => c.putAll es)
      rw [hany] at hany2
      have hshape : CacheStorage.update ⟨true, gens1⟩ CACHE_NAME (fun c => c.putAll es)
          = ⟨true, (CacheStorage.update ⟨true, gens1⟩ CACHE_NAME
              (fun c => c.putAll es)).generations⟩ := rfl
      rw [hshape, installListener_resolved net _ es hf, cachesOpen_of_any CACHE_NAME _ hany2]
      simp only
      rw [← hshape, update_update]
      simp only [putAll_idempotent, and_self]

/-! ## Message handling -/

/-- C9. Message handling: for every payload, the message handler calls
skipWaiting (exactly once) if and only if the payload's action field is the
string skipWaiting; for any other payload it makes no host call at all; and in
every case the cache storage is unchanged. -/
theorem message_skip_waiting (data : JsVal) (st : CacheStorage) :
    (Effect.skipWaiting ∈ (messageListener data st).trace
        ↔ data.action = .ok (.string "skipWaiting"))
      ∧ (data.action = .ok (.string "skipWaiting") →
          (messageListener data st).trace = [.skipWaiting])
      ∧ (data.action ≠ .ok (.string "skipWaiting") → (messageListener data st).trace = [])
      ∧ (messageListener data st).caches = st := by
  unfold messageListener
  cases hact : data.action with
  | error e => simp [Promise.reject]
  | ok v =>
    cases v with
    | string s =>
      by_cases hs : s = "skipWaiting"
      · subst hs; simp [JsVal.strictEqString, Promise.hostCall]
      · simp [JsVal.strictEqString, Promise.hostCall, Promise.resolve, hs]
    | _ => simp [JsVal.strictEqString, Promise.resolve]

/-! ## The claims at concrete inputs -/

/-- With a stale and the current generation, activation leaves only the current one. -/
theorem activate_garbage_collection_witness :
    (∀ g ∈ (activateListener ⟨true, staleAndCurrent⟩).caches.generations, g.1 = CACHE_NAME)
      ∧ (activateListener ⟨true, staleAndCurrent⟩).caches.generation "nutritrack-v0" = none
      ∧ (activateListener ⟨true, staleAndCurrent⟩).caches.generation CACHE_NAME = some [] :=
  have h := activate_garbage_collection staleAndCurrent
  ⟨h.2.1, h.2.2.1 "nutritrack-v0" (by decide), h.2.2.2.trans (by decide)⟩

/-- A request held by the stale generation is answered from it, offline. -/
theorem fetch_cache_hit_witness :
    (("nutritrack-v0", [(dataJson, sampleBasic)]) : String × Cache) ∈ staleAndCurrent
      ∧ Cache.matchRequest [(dataJson, sampleBasic)] dataJson = some sampleBasic
      ∧ ∃ found, CacheStorage.matchRequest ⟨true, staleAndCurrent⟩ dataJson = some found
          ∧ (fetchListener networkOffline dataJson ⟨true, staleAndCurrent⟩).result
              = .ok (some found)
          ∧ (fetchListener networkOffline dataJson ⟨true, staleAndCurrent⟩).caches
              = ⟨true, staleAndCurrent⟩ :=
  ⟨by decide, by decide,
    match fetch_cache_hit networkOffline dataJson staleAndCurrent "nutritrack-v0"
      [(dataJson, sampleBasic)] sampleBasic (by decide) (by decide) with
    | ⟨found, h1, _, _, h4, _, h6⟩ => ⟨found, h1, h4, h6⟩⟩

/-- A GET request that misses a non-empty cache storage is answered from the
network and stored in the current generation, next to what was there. -/
theorem fetch_cacheable_miss_witness :
    (∀ g ∈ staleAndCurrent, g.2.matchRequest indexHtml = none)
      ∧ networkOnline indexHtml = .resolved (some sampleBasic)
      ∧ indexHtml.method = "GET" ∧ "*" ∉ sampleBasic.vary
      ∧ (fetchListener networkOnline indexHtml ⟨true, staleAndCurrent⟩).result
          = .ok (some sampleBasic)
      ∧ (fetchListener networkOnline indexHtml ⟨true, staleAndCurrent⟩).caches.entry
          CACHE_NAME indexHtml = some sampleBasic
      ∧ (fetchListener networkOnline indexHtml ⟨true, staleAndCurrent⟩).caches.generation
          "nutritrack-v0" = some [(dataJson, sampleBasic)] :=
  have h := fetch_cacheable_miss networkOnline indexHtml staleAndCurrent sampleBasic
    (by decide) rfl rfl rfl rfl (by decide)
  ⟨by decide, rfl, rfl, by decide, h.1, h.2.1,
    (h.2.2.2 "nutritrack-v0" (by decide)).trans (by decide)⟩

/-- C3, as stated, fails: a POST request that misses the cache and is answered
200 basic gets the network response, but the host refuses the put and the
current generation holds no entry for it; the same happens to a GET request
answered 200 basic with a Vary header listing the star. -/
theorem fetch_cacheable_miss_refused :
    ((∀ g ∈ ([] : List (String × Cache)), g.2.matchRequest postData = none)
        ∧ networkOnline postData = .resolved (some sampleBasic)
        ∧ sampleBasic.status = 200 ∧ sampleBasic.type = "basic"
        ∧ (fetchListener networkOnline postData ⟨true, []⟩).result = .ok (some sampleBasic)
        ∧ (fetchListener networkOnline postData ⟨true, []⟩).caches.entry CACHE_NAME postData
            = none)
      ∧ (networkVaryStar dataJson = .resolved (some sampleVaryStar)
        ∧ sampleVaryStar.status = 200 ∧ sampleVaryStar.type = "basic"
        ∧ (fetchListener networkVaryStar dataJson ⟨true, []⟩).result
            = .ok (some sampleVaryStar)
        ∧ (fetchListener networkVaryStar dataJson ⟨true, []⟩).caches.entry CACHE_NAME dataJson
            = none) :=
  ⟨⟨by decide, rfl, rfl, rfl, rfl, by decide⟩, rfl, rfl, rfl, rfl, by decide⟩

/-- The spec's scenario: `/cdn/lib.js` answers 200 opaque and no entry is
created; and the entry a cacheable miss writes is a 200 basic response. -/
theorem fetch_non_cacheable_witness :
    ((fetchListener networkOpaque cdnLib ⟨true, staleAndCurrent⟩).result
          = .ok (some sampleOpaque)
        ∧ (fetchListener networkOpaque cdnLib ⟨true, staleAndCurrent⟩).caches
          = ⟨true, staleAndCurrent⟩)
      ∧ (sampleBasic.status = 200 ∧ sampleBasic.type = "basic") :=
  have h1 := (fetch_non_cacheable networkOpaque cdnLib ⟨true, staleAndCurrent⟩).1
    (some sampleOpaque) rfl (by decide) rfl
    (fun r hr => by cases hr; exact Or.inr (by decide))
  have h2 := (fetch_non_cacheable networkOnline dataJson ⟨true, []⟩).2
    CACHE_NAME dataJson sampleBasic (by decide) (by decide)
  ⟨⟨h1.1, h1.2.1⟩, h2.1, h2.2.1⟩

/-- The spec's scenario: after an install from the empty cache storage,
`/manifest.json` is stored and `/unknown.js` is not. -/
theorem install_prepopulates_witness :
    (installListener networkOnline ⟨true, []⟩).result = .ok ()
      ∧ (∃ r, networkOnline (Request.ofUrl "/manifest.json") = .resolved (some r)
          ∧ (installListener networkOnline ⟨true, []⟩).caches.entry CACHE_NAME
              (Request.ofUrl "/manifest.json") = some r)
      ∧ (installListener networkOnline ⟨true, []⟩).caches.entry CACHE_NAME
          (Request.ofUrl "/unknown.js") = none :=
  ⟨rfl, (install_prepopulates networkOnline).1 ⟨true, []⟩ rfl "/manifest.json" (by decide),
    (install_prepopulates networkOnline).2 rfl "/unknown.js" (by decide)⟩

/-- The payload whose action is skipWaiting triggers the call; another action does not. -/
theorem message_skip_waiting_witness :
    (messageListener (.object [("action", .string "skipWaiting")]) ⟨true, []⟩).trace
        = [.skipWaiting]
      ∧ (messageListener (.object [("action", .string "refresh")]) ⟨true, []⟩).trace = [] :=
  ⟨(message_skip_waiting (.object [("action", .string "skipWaiting")]) ⟨true, []⟩).2.1 rfl,
    (message_skip_waiting (.object [("action", .string "refresh")]) ⟨true, []⟩).2.2.1
      (by simp [JsVal.action])⟩

/-- Offline, a request that misses the cache gets no response. -/
theorem fetch_network_failure_witness :
    (∀ g ∈ ([] : List (String × Cache)), g.2.matchRequest dataJson = none)
      ∧ networkOffline dataJson = .failed
      ∧ (fetchListener networkOffline dataJson ⟨true, []⟩).result = .ok none
      ∧ (fetchListener networkOffline dataJson ⟨true, []⟩).caches = ⟨true, []⟩ :=
  have h := fetch_network_failure networkOffline dataJson [] (by decide) rfl
  ⟨by decide, rfl, h.1, h.2.1⟩

/-- C6, as stated, fails: offline, on a cache miss, the fetch handler supplies
no response, neither a stored one nor the network's. -/
theorem fetch_response_missing :
    (fetchListener networkOffline dataJson ⟨true, []⟩).result = .ok none
      ∧ ¬ ∃ r, (fetchListener networkOffline dataJson ⟨true, []⟩).result = .ok (some r) := by
  have h : (fetchListener networkOffline dataJson ⟨true, []⟩).result = .ok none := rfl
  refine ⟨h, ?_⟩
  rintro ⟨r, hr⟩
  rw [h] at hr
  cases hr

/-- C7, as stated, fails: with the cache storage unavailable and the network
answering, the fetch handler makes no network fetch and supplies no response,
while on a miss in an empty cache storage it fetches and returns the answer. -/
theorem lookup_failure_skips_network :
    (fetchListener networkOnline dataJson ⟨false, []⟩).result = .ok none
      ∧ Effect.networkFetch dataJson ∉ (fetchListener networkOnline dataJson ⟨false, []⟩).trace
      ∧ (fetchListener networkOnline dataJson ⟨true, []⟩).result = .ok (some sampleBasic)
      ∧ Effect.networkFetch dataJson ∈ (fetchListener networkOnline dataJson ⟨true, []⟩).trace :=
  ⟨rfl, by decide, rfl, by decide⟩

end NutriTrack
